import Mathlib

/-!
Verification of the Vekkam grounded-synthesis and mastery-gated assessment
engine (src/streamlit_app.py) against its natural-language specification.

The Python code is shallowly embedded: dictionaries become functions or
association lists, the external Gemini generation service becomes an
explicit response argument or an outcome oracle, Python floats in the
pass-gate comparisons become exact rationals, and the md5 digest is an
abstract parameter (the real one always returns 8 hex characters).
Definitions are grouped first, theorems afterwards.
-/

namespace Vekkam

/-- State of a concept node in the mastery engine, i.e. the values stored
in the `user_progress` dictionary: "locked", "unlocked", "mastered". -/
inductive NState where
  | locked
  | unlocked
  | mastered
  deriving DecidableEq, Repr

/-- Rank embedding of the forward order locked, then unlocked, then mastered. -/
def stateRank : NState → ℕ
  | .locked => 0
  | .unlocked => 1
  | .mastered => 2

/-- A mastery genome: node ids plus directed prerequisite edges (from, to),
as in ECON_101_GENOME and st.session_state.current_genome. -/
structure Genome where
  nodes : List String
  edges : List (String × String)

/-- The user_progress dictionary; a missing key reads as locked, matching
progress.get(node_id, 'locked') in render_skill_tree. -/
abbrev Progress := String → NState

/-- Dictionary assignment progress[k] = v. -/
def setState (p : Progress) (k : String) (v : NState) : Progress :=
  fun x => if x = k then v else p x

/-- Course initialization (render_course_selection, lines 1238-1243): root
nodes (those that are no edge's destination) start unlocked, all other
genome nodes locked; ids outside the genome also read as locked. -/
def initProgress (g : Genome) : Progress :=
  fun x =>
    if g.nodes.contains x then
      if (g.edges.map Prod.snd).contains x then NState.locked else NState.unlocked
    else NState.locked

/-- Boss-battle victory update (render_boss_battle, lines 1327-1330): the
beaten node is set to mastered, then the loop over the genome's edges
sets the target of every edge leaving that node to unlocked. -/
def bossBattleMaster (g : Genome) (p : Progress) (n : String) : Progress :=
  g.edges.foldl
    (fun q e => if e.1 = n then setState q e.2 NState.unlocked else q)
    (setState p n NState.mastered)

/-- Concept creation (render_course_selection, line 1261): the generated
gene id is set to unlocked unconditionally, whether or not that node
already existed in the genome. -/
def addConceptProgress (p : Progress) (gene_id : String) : Progress :=
  setState p gene_id NState.unlocked

/-- Progress states reachable from course initialization by boss-battle
victories on nodes the skill tree offers (i.e. currently unlocked ones). -/
inductive Reach (g : Genome) : Progress → Prop where
  | init : Reach g (initProgress g)
  | master (p : Progress) (n : String) :
      Reach g p → p n = NState.unlocked → Reach g (bossBattleMaster g p n)

/-- The built-in Econ 101 genome's node ids and prerequisite chain. -/
def econGenome : Genome :=
  { nodes := ["ECON101_SCARCITY", "ECON101_OPPCOST", "ECON101_SND"]
    edges := [("ECON101_SCARCITY", "ECON101_OPPCOST"), ("ECON101_OPPCOST", "ECON101_SND")] }

/-- A genome in which node c has the two prerequisites a and b. -/
def twoPrereqGenome : Genome :=
  { nodes := ["a", "b", "c"], edges := [("a", "c"), ("b", "c")] }

/-- The genome holding a single user-generated concept X and no edges,
as produced by the create-your-own-concept path. -/
def customGenomeX : Genome := { nodes := ["X"], edges := [] }

/-- Invariant: every mastered node has all its prerequisites mastered. -/
def MasteredClosed (g : Genome) (p : Progress) : Prop :=
  ∀ e ∈ g.edges, p e.2 = NState.mastered → p e.1 = NState.mastered

/-- Invariant: every unlocked node has all its prerequisites mastered. -/
def UnlockedJustified (g : Genome) (p : Progress) : Prop :=
  ∀ e ∈ g.edges, p e.2 = NState.unlocked → p e.1 = NState.mastered

/-- Pass/fail branch of render_mcq_results (lines 988-998): on a passing
percentage the next test stage is offered; on failure the whole mock test
restarts from the syllabus input stage 'start'. -/
def render_mcq_results_next (pass_mark_percent : ℕ) (next_stage : String)
    (score total : ℕ) : String :=
  if (score : ℚ) / (total : ℚ) * 100 ≥ (pass_mark_percent : ℚ) then next_stage
  else "start"

/-- Pass/fail branch of render_subjective_results (lines 1054-1066): on a
passing percentage the next stage is offered; on failure the same stage
regenerates a fresh question set. -/
def render_subjective_results_next (q_type : String) (pass_mark_percent : ℕ)
    (next_stage : String) (score total : ℕ) : String :=
  if (score : ℚ) / (total : ℚ) * 100 ≥ (pass_mark_percent : ℚ) then next_stage
  else q_type ++ "_generating"

/-- One graded entry of the grader's feedback_per_question list. -/
structure FeedbackItem where
  question_id : String
  score_awarded : ℕ
  max_score : ℕ
  reasoning : String

/-- A successful grade_subjective_answers reply. -/
structure GradingReply where
  total_score : ℕ
  feedback_per_question : List FeedbackItem

/-- Score/feedback/error-banner update of render_subjective_results
(lines 1025-1037).  The argument is the grading call's result; none is a
failed call (transport error or parse error, both downgraded to None by
the retry decorator and the resilient parser).  Returns the recorded
stage score, the recorded per-question feedback list, and whether the
error banner was shown. -/
def render_subjective_results_update (g : Option GradingReply) :
    ℕ × List FeedbackItem × Bool :=
  match g with
  | some r => (r.total_score, r.feedback_per_question, false)
  | none => (0, [], true)

/-- Python str.split() with no separator (used by chunk_text and the
outline prompt filter): split on whitespace runs, dropping empty pieces;
acc holds the reversed word currently being read. -/
def pySplitGo (acc : List Char) : List Char → List (List Char)
  | [] => if acc = [] then [] else [acc.reverse]
  | c :: cs =>
    if c.isWhitespace then
      if acc = [] then pySplitGo [] cs else acc.reverse :: pySplitGo [] cs
    else pySplitGo (c :: acc) cs

/-- Python text.split() on a string. -/
def pySplit (s : String) : List String :=
  (pySplitGo [] s.data).map (fun w => String.mk w)

/-- Python range(0, stop, step) for step at least 1. -/
def pyRange (stop step : ℕ) : List ℕ :=
  (List.range ((stop + step - 1) / step)).map (fun j => j * step)

/-- Decimal digit characters. -/
def digitChar : ℕ → Char
  | 0 => '0'
  | 1 => '1'
  | 2 => '2'
  | 3 => '3'
  | 4 => '4'
  | 5 => '5'
  | 6 => '6'
  | 7 => '7'
  | 8 => '8'
  | _ => '9'

/-- Decimal rendering of a natural number, i.e. Python str(i) for the
nonnegative ints interpolated into chunk ids. -/
def natDigits (n : ℕ) : List Char :=
  if _h : n < 10 then [digitChar n]
  else natDigits (n / 10) ++ [digitChar (n % 10)]
decreasing_by exact Nat.div_lt_self (by omega) (by omega)

/-- Numeric value of a decimal digit string (decoding tool used to prove
that natDigits is injective). -/
def digitsVal (cs : List Char) : ℕ :=
  cs.foldl (fun a c => 10 * a + (c.toNat - 48)) 0

/-- A produced chunk record with keys chunk_id and text. -/
structure Chunk where
  chunk_id : String
  text : String

/-- The chunk id f-string source_id::chunk_k_hash of chunk_text line 302. -/
def chunkIdOf (source_id : String) (k : ℕ) (chash : String) : String :=
  source_id ++ "::chunk_" ++ String.mk (natDigits k) ++ "_" ++ chash

/-- The word windows taken by chunk_text's loop: for each window start i in
range(0, len(words), chunk_size - overlap), the slice words[i : i + chunk_size]. -/
def chunkWordSpans (words : List String) (chunk_size overlap : ℕ) :
    List (ℕ × List String) :=
  (pyRange words.length (chunk_size - overlap)).map
    (fun i => (i, (words.drop i).take chunk_size))

/-- chunk_text (lines 294-304).  The md5 hex digest primitive is passed as
a parameter; the real hashlib.md5(...).hexdigest()[:8] always returns a
string of 8 hex characters. -/
def chunk_text (md5hex8 : String → String) (text source_id : String)
    (chunk_size overlap : ℕ) : List Chunk :=
  if text = "" then []
  else
    (chunkWordSpans (pySplit text) chunk_size overlap).map (fun iw =>
      let ctext := " ".intercalate iw.2
      { chunk_id := chunkIdOf source_id (iw.1 / (chunk_size - overlap)) (md5hex8 ctext)
        text := ctext })

/-- JSON values as produced by the json module; numbers are modelled as
integers, which covers every payload this application parses (floats,
NaN and Infinity are out of the modelled fragment). -/
inductive JsonValue where
  | null
  | bool (b : Bool)
  | num (n : Int)
  | str (s : String)
  | arr (elems : List JsonValue)
  | obj (members : List (String × JsonValue))

/-- The opening brace character. -/
def lbrace : Char := Char.ofNat 123

/-- The closing brace character. -/
def rbrace : Char := Char.ofNat 125

/-- The backtick character used by markdown code fences. -/
def backtickChar : Char := Char.ofNat 96

/-- Skip JSON whitespace (space, tab, newline, carriage return). -/
def skipWsL (cs : List Char) : List Char :=
  cs.dropWhile (fun c => c == ' ' || c == '\t' || c == '\n' || c == '\r')

/-- Unescape one JSON escape character; \u sequences are outside the
modelled fragment. -/
def unescape (c : Char) : Option Char :=
  if c = '\"' then some '\"'
  else if c = '\\' then some '\\'
  else if c = '/' then some '/'
  else if c = 'n' then some '\n'
  else if c = 't' then some '\t'
  else if c = 'r' then some '\r'
  else if c = 'b' then some (Char.ofNat 8)
  else if c = 'f' then some (Char.ofNat 12)
  else none

/-- Parse the body of a JSON string after the opening quote; the
accumulator holds the reversed content read so far. -/
def parseJStringAux : List Char → List Char → Option (String × List Char)
  | [], _ => none
  | c :: rest, acc =>
    if c = '\"' then some (String.mk acc.reverse, rest)
    else if c = '\\' then
      match rest with
      | [] => none
      | e :: rest2 =>
        match unescape e with
        | some d => parseJStringAux rest2 (d :: acc)
        | none => none
    else parseJStringAux rest (c :: acc)

/-- Parse a JSON integer: optional minus, digits, no leading zeros; a
following '.', 'e' or 'E' would be a float and is outside the modelled
fragment, so it fails. -/
def parseNumber (cs : List Char) : Option (Int × List Char) :=
  let neg := cs.head? = some '-'
  let cs1 := if neg then cs.drop 1 else cs
  let ds := cs1.takeWhile Char.isDigit
  let rest := cs1.dropWhile Char.isDigit
  if ds = [] then none
  else if 1 < ds.length ∧ ds.head? = some '0' then none
  else if rest.head? = some '.' ∨ rest.head? = some 'e' ∨ rest.head? = some 'E' then none
  else
    let v : Int := Int.ofNat (digitsVal ds)
    some (if neg then -v else v, rest)

mutual

/-- Parse one JSON value, allowing leading whitespace; fuel bounds the
recursion and one unit is consumed per nested parse step. -/
def parseValue : ℕ → List Char → Option (JsonValue × List Char)
  | 0, _ => none
  | fuel + 1, cs =>
    match skipWsL cs with
    | [] => none
    | c :: rest =>
      if c = '\"' then
        match parseJStringAux rest [] with
        | some (s, rest1) => some (JsonValue.str s, rest1)
        | none => none
      else if c = lbrace then
        match skipWsL rest with
        | d :: rest1 =>
          if d = rbrace then some (JsonValue.obj [], rest1)
          else
            match parseMembers fuel rest [] with
            | some (ms, rest2) => some (JsonValue.obj ms, rest2)
            | none => none
        | [] => none
      else if c = '[' then
        match skipWsL rest with
        | d :: rest1 =>
          if d = ']' then some (JsonValue.arr [], rest1)
          else
            match parseElems fuel rest [] with
            | some (es, rest2) => some (JsonValue.arr es, rest2)
            | none => none
        | [] => none
      else if ['t', 'r', 'u', 'e'].isPrefixOf (c :: rest) then
        some (JsonValue.bool true, (c :: rest).drop 4)
      else if ['f', 'a', 'l', 's', 'e'].isPrefixOf (c :: rest) then
        some (JsonValue.bool false, (c :: rest).drop 5)
      else if ['n', 'u', 'l', 'l'].isPrefixOf (c :: rest) then
        some (JsonValue.null, (c :: rest).drop 4)
      else
        match parseNumber (c :: rest) with
        | some (n, rest1) => some (JsonValue.num n, rest1)
        | none => none

/-- Parse the members of a nonempty JSON object up to the closing brace. -/
def parseMembers : ℕ → List Char → List (String × JsonValue) →
    Option (List (String × JsonValue) × List Char)
  | 0, _, _ => none
  | fuel + 1, cs, acc =>
    match skipWsL cs with
    | c :: rest =>
      if c = '\"' then
        match parseJStringAux rest [] with
        | some (k, rest1) =>
          match skipWsL rest1 with
          | ':' :: rest2 =>
            match parseValue fuel rest2 with
            | some (v, rest3) =>
              match skipWsL rest3 with
              | ',' :: rest4 => parseMembers fuel rest4 ((k, v) :: acc)
              | d :: rest4 =>
                if d = rbrace then some (((k, v) :: acc).reverse, rest4) else none
              | [] => none
            | none => none
          | _ => none
        | none => none
      else none
    | [] => none

/-- Parse the elements of a nonempty JSON array up to the closing bracket. -/
def parseElems : ℕ → List Char → List JsonValue →
    Option (List JsonValue × List Char)
  | 0, _, _ => none
  | fuel + 1, cs, acc =>
    match parseValue fuel cs with
    | some (v, rest) =>
      match skipWsL rest with
      | ',' :: rest2 => parseElems fuel rest2 (v :: acc)
      | d :: rest2 => if d = ']' then some ((v :: acc).reverse, rest2) else none
      | [] => none
    | none => none

end

/-- json.loads on a char list: parse one value and require at most
whitespace after it, else the JSONDecodeError becomes none. -/
def jsonLoadsChars (cs : List Char) : Option JsonValue :=
  match parseValue (cs.length + 1) cs with
  | some (v, rest) => if skipWsL rest = [] then some v else none
  | none => none

/-- json.loads on a string. -/
def jsonLoads (s : String) : Option JsonValue := jsonLoadsChars s.data

/-- Does optional whitespace followed by a closing code fence come next?
This is the regex tail after the lazy group. -/
def fenceAfterWs (cs : List Char) : Bool :=
  [backtickChar, backtickChar, backtickChar].isPrefixOf (cs.dropWhile Char.isWhitespace)

/-- Scan for the lazy closing brace of the fenced regex group: the first
closing brace that is followed, after whitespace, by a fence ends the
group; acc holds the reversed body consumed so far including the opening
brace. -/
def findLazyClose : List Char → List Char → Option (List Char)
  | [], _ => none
  | c :: rest, acc =>
    if c = rbrace ∧ fenceAfterWs rest then some (acc.reverse ++ [rbrace])
    else findLazyClose rest (c :: acc)

/-- Attempt the fenced-JSON pattern at a position just after three
backticks: the optional literal "json", then whitespace, then a lazily
closed brace group whose capture is returned. -/
def tryFenceAt (cs : List Char) : Option (List Char) :=
  match (if ['j', 's', 'o', 'n'].isPrefixOf cs then cs.drop 4
         else cs).dropWhile Char.isWhitespace with
  | c :: rest => if c = lbrace then findLazyClose rest [lbrace] else none
  | [] => none

/-- Leftmost match of the fenced pattern of resilient_json_parser's first
regex, returning capture group 2. -/
def fencedSpan : List Char → Option (List Char)
  | [] => none
  | c :: rest =>
    if c = backtickChar ∧ [backtickChar, backtickChar].isPrefixOf rest then
      match tryFenceAt (rest.drop 2) with
      | some span => some span
      | none => fencedSpan rest
    else fencedSpan rest

/-- The second regex of resilient_json_parser, a greedy DOTALL brace
pattern: from the first opening brace that has a closing brace after it,
through the last closing brace of the whole string. -/
def braceSpan (cs : List Char) : Option (List Char) :=
  match cs.reverse.findIdx? (fun c => c == rbrace) with
  | none => none
  | some ridx =>
    let e := cs.length - 1 - ridx
    match (cs.take e).findIdx? (fun c => c == lbrace) with
    | none => none
    | some b => some ((cs.drop b).take (e - b + 1))

/-- resilient_json_parser (lines 280-292): try the fenced pattern first,
else the greedy brace pattern; json.loads failures raise inside the try
and are caught, returning None, so close to the source the second
pattern is never tried once the first has matched. -/
def resilient_json_parse (s : String) : Option JsonValue :=
  match fencedSpan s.data with
  | some span => jsonLoadsChars span
  | none =>
    match braceSpan s.data with
    | some span => jsonLoadsChars span
    | none => none

/-- Chunks surviving the prompt filter of generate_content_outline (line
340): truthy text with more than 10 words. -/
def promptChunksOf (all_chunks : List Chunk) : List Chunk :=
  all_chunks.filter (fun c => c.text != "" && decide (10 < (pySplit c.text).length))

/-- generate_content_outline (lines 338-365), with the generation service
response to the constructed prompt as an explicit argument: when no chunk
passes the prompt filter the function errors out with None; otherwise it
returns the resiliently parsed response unchanged - the source performs
no validation of the returned chunk ids against the pool. -/
def generate_content_outline (all_chunks : List Chunk) (response : String) :
    Option JsonValue :=
  if (promptChunksOf all_chunks).isEmpty then none
  else resilient_json_parse response

/-- Chunk ids referenced by one topic entry of an outline reply. -/
def topicEntryRefs : JsonValue → List String
  | JsonValue.obj kvs =>
    match kvs.find? (fun kv => kv.1 == "relevant_chunks") with
    | some (_, JsonValue.arr ids) =>
      ids.filterMap (fun j =>
        match j with
        | JsonValue.str s => some s
        | _ => none)
    | _ => []
  | _ => []

/-- All chunk ids referenced under the root key "outline" of a reply. -/
def outlineRefs (v : JsonValue) : List String :=
  match v with
  | JsonValue.obj kvs =>
    match kvs.find? (fun kv => kv.1 == "outline") with
    | some (_, JsonValue.arr topics) => (topics.map topicEntryRefs).flatten
    | _ => []
  | _ => []

/-- chunks_map lookup of a chunk id, i.e. membership-guarded dict access. -/
def lookupChunk (cmap : List (String × String)) (cid : String) : Option String :=
  (cmap.find? (fun kv => kv.1 == cid)).map (fun kv => kv.2)

/-- The fixed placeholder content for a topic without usable source text. -/
def noSourcePlaceholder : String := "Could not find source text for this topic."

/-- Python str.strip(): remove leading and trailing whitespace. -/
def pyStrip (s : String) : String :=
  String.mk (((s.data.dropWhile Char.isWhitespace).reverse.dropWhile
    Char.isWhitespace).reverse)

/-- The conditional of show_synthesizing_state line 818 on the joined
text: placeholder without a generation call when the text strips to
empty, else the generation service's output. -/
def synthDecision (gen : String → String) (text_to_synthesize : String) :
    Bool × String :=
  if pyStrip text_to_synthesize = "" then (false, noSourcePlaceholder)
  else (true, gen text_to_synthesize)

/-- Per-topic synthesis step of show_synthesizing_state (lines 817-819):
join the resolvable chunk texts with the separator; if the joined text
strips to empty the content is the placeholder and no generation call is
made, else the generation service is called on the joined text.  The
Bool of the result records whether the service was called. -/
def synthesizeTopicStep (matched_chunks : List String)
    (cmap : List (String × String)) (gen : String → String) : Bool × String :=
  synthDecision gen
    ("\n\n---\n\n".intercalate (matched_chunks.filterMap (lookupChunk cmap)))

/-- Outcome of one call to the function wrapped by the retry decorator:
a normal return, a google.api_core ResourceExhausted rate-limit error
carrying its message, or any other exception. -/
inductive ApiOutcome (α : Type) where
  | success (v : α)
  | resourceExhausted (msg : String)
  | otherError (msg : String)

/-- The retry cap of the decorator. -/
def MAX_RETRIES : ℕ := 3

/-- Match the regex retry_delay-brace-seconds pattern at this position:
the literal "retry_delay " and an opening brace, whitespace, the literal
"seconds: ", one or more digits, whitespace, a closing brace. -/
def matchRetryDelayAt (cs : List Char) : Option ℕ :=
  let lit1 := "retry_delay ".data ++ [lbrace]
  if lit1.isPrefixOf cs then
    let r1 := (cs.drop lit1.length).dropWhile Char.isWhitespace
    if "seconds: ".data.isPrefixOf r1 then
      let r2 := r1.drop 9
      let ds := r2.takeWhile Char.isDigit
      if ds = [] then none
      else
        let r3 := (r2.dropWhile Char.isDigit).dropWhile Char.isWhitespace
        if r3.head? = some rbrace then some (digitsVal ds) else none
    else none
  else none

/-- re.search of the retry-delay pattern: first matching position wins. -/
def extractRetryDelayAux : List Char → Option ℕ
  | [] => none
  | c :: rest =>
    match matchRetryDelayAt (c :: rest) with
    | some n => some n
    | none => extractRetryDelayAux rest

/-- Server-suggested retry seconds extracted from str(e), if present. -/
def extractRetryDelay (msg : String) : Option ℕ :=
  extractRetryDelayAux msg.data

/-- The sleep chosen for rate-limit attempt number `attempt` (the retries
counter after its increment): the extracted server-suggested seconds plus
the base delay when the pattern is present, else delay * 2 ^ attempt. -/
def waitTime (msg : String) (delay attempt : ℕ) : ℕ :=
  match extractRetryDelay msg with
  | some secs => secs + delay
  | none => delay * 2 ^ attempt

/-- gemini_api_call_with_retry's loop (lines 92-115) as a function of the
outcome of each successive call; returns the wrapper's result, the list
of sleeps performed, and the number of calls made. -/
def retryLoop (f : ℕ → ApiOutcome α) : ℕ → ℕ → ℕ → ℕ → Option α × List ℕ × ℕ
  | _, _, _, 0 => (none, [], 0)
  | retries, delay, callIdx, fuel + 1 =>
    if retries < MAX_RETRIES then
      match f callIdx with
      | .success v => (some v, [], 1)
      | .otherError _ => (none, [], 1)
      | .resourceExhausted msg =>
        if retries + 1 ≥ MAX_RETRIES then (none, [], 1)
        else
          let rest := retryLoop f (retries + 1) delay (callIdx + 1) fuel
          (rest.1, waitTime msg delay (retries + 1) :: rest.2.1, rest.2.2 + 1)
    else (none, [], 0)

/-- The wrapper with its initial state retries = 0, delay = 1. -/
def gemini_api_call_with_retry (f : ℕ → ApiOutcome α) : Option α × List ℕ × ℕ :=
  retryLoop f 0 1 0 MAX_RETRIES

/-- A concrete 1200-word text: 1200 repetitions of "a ". -/
def text1200 : String := String.mk (List.flatten (List.replicate 1200 ['a', ' ']))

/-! ## Theorems: mastery graph (claims C1 and C2) -/

/-- Pointwise description of the boss-battle edge fold: the target of any
edge leaving n reads unlocked, every other id is unchanged. -/
theorem foldl_unlock_apply (n : String) (es : List (String × String))
    (q : Progress) (x : String) :
    (es.foldl (fun q e => if e.1 = n then setState q e.2 NState.unlocked else q) q) x
      = if ∃ e ∈ es, e.1 = n ∧ e.2 = x then NState.unlocked else q x := by
  induction es generalizing q with
  | nil => simp
  | cons e es ih =>
    simp only [List.foldl_cons]
    rw [ih]
    rcases Classical.em (∃ p ∈ es, p.1 = n ∧ p.2 = x) with hes | hes
    · rw [if_pos hes]
      obtain ⟨p, hp, hcond⟩ := hes
      rw [if_pos ⟨p, List.mem_cons_of_mem _ hp, hcond⟩]
    · rw [if_neg hes]
      by_cases h1 : e.1 = n
      · rw [if_pos h1]
        by_cases h2 : e.2 = x
        · rw [if_pos ⟨e, List.mem_cons_self _ _, h1, h2⟩]
          simp only [setState]
          rw [if_pos h2.symm]
        · have hno : ¬ ∃ p ∈ e :: es, p.1 = n ∧ p.2 = x := by
            rintro ⟨p, hp, hpn, hpx⟩
            rcases List.mem_cons.mp hp with rfl | hp'
            · exact h2 hpx
            · exact hes ⟨p, hp', hpn, hpx⟩
          rw [if_neg hno]
          simp only [setState]
          rw [if_neg (fun hx => h2 hx.symm)]
      · rw [if_neg h1]
        have hno : ¬ ∃ p ∈ e :: es, p.1 = n ∧ p.2 = x := by
          rintro ⟨p, hp, hpn, hpx⟩
          rcases List.mem_cons.mp hp with rfl | hp'
          · exact h1 hpn
          · exact hes ⟨p, hp', hpn, hpx⟩
        rw [if_neg hno]

/-- Closed form of bossBattleMaster at one id. -/
theorem bossBattleMaster_apply (g : Genome) (p : Progress) (n x : String) :
    bossBattleMaster g p n x
      = if ∃ e ∈ g.edges, e.1 = n ∧ e.2 = x then NState.unlocked
        else if x = n then NState.mastered else p x := by
  unfold bossBattleMaster
  rw [foldl_unlock_apply]
  rcases Classical.em (∃ e ∈ g.edges, e.1 = n ∧ e.2 = x) with h | h
  · rw [if_pos h, if_pos h]
  · rw [if_neg h, if_neg h]
    simp only [setState]

/-- C1 counterexample: in a genome where node c has the two prerequisites
a and b, the reachable boss-battle victory on the unlocked root a sets c
to unlocked even though the other prerequisite b is not mastered - the
claim says c should remain locked. -/
theorem boss_unlock_ignores_other_prereq_cex :
    initProgress twoPrereqGenome "a" = NState.unlocked
    ∧ bossBattleMaster twoPrereqGenome (initProgress twoPrereqGenome) "a" "c"
        = NState.unlocked
    ∧ bossBattleMaster twoPrereqGenome (initProgress twoPrereqGenome) "a" "b"
        ≠ NState.mastered :=
  ⟨by decide, by decide, by decide⟩

/-- C1 amended: a boss-battle victory sets every direct successor of the
mastered node to unlocked unconditionally, regardless of the successor's
other prerequisites. -/
theorem master_unlocks_every_successor (g : Genome) (p : Progress) (n x : String)
    (hedge : (n, x) ∈ g.edges) : bossBattleMaster g p n x = NState.unlocked := by
  rw [bossBattleMaster_apply, if_pos ⟨(n, x), hedge, rfl, rfl⟩]

/-- Witness for the amended C1 theorem at the two-prerequisite genome. -/
theorem master_unlocks_every_successor_witness :
    bossBattleMaster twoPrereqGenome (fun _ => NState.locked) "b" "c"
      = NState.unlocked :=
  master_unlocks_every_successor twoPrereqGenome (fun _ => NState.locked) "b" "c"
    (by decide)

/-- A state of rank at least two is mastered. -/
theorem rank_two_eq_mastered (s : NState) (h : 2 ≤ stateRank s) :
    s = NState.mastered := by
  cases s <;> simp [stateRank] at h ⊢

/-- Course initialization never yields a mastered node. -/
theorem initProgress_ne_mastered (g : Genome) (x : String) :
    initProgress g x ≠ NState.mastered := by
  unfold initProgress
  split_ifs <;> simp

/-- Course initialization unlocks only ids that are no edge's destination. -/
theorem initProgress_unlocked_root (g : Genome) (x : String)
    (h : initProgress g x = NState.unlocked) :
    ¬ (g.edges.map Prod.snd).contains x := by
  unfold initProgress at h
  split_ifs at h with h1 h2
  exact h2

/-- Both invariants hold after course initialization. -/
theorem inv_init (g : Genome) :
    MasteredClosed g (initProgress g) ∧ UnlockedJustified g (initProgress g) := by
  constructor
  · intro e _ h
    exact absurd h (initProgress_ne_mastered g e.2)
  · intro e he h
    have hc := initProgress_unlocked_root g e.2 h
    exact absurd (by simpa using List.mem_map_of_mem Prod.snd he) hc

/-- Under the mastered-closure invariant, a boss-battle victory on an
unlocked node moves every node's state forward. -/
theorem master_forward (g : Genome) (p : Progress) (n : String)
    (hM : MasteredClosed g p) (hn : p n = NState.unlocked) (x : String) :
    stateRank (p x) ≤ stateRank (bossBattleMaster g p n x) := by
  rw [bossBattleMaster_apply]
  split_ifs with h1 h2
  · obtain ⟨e, he, hen, hex⟩ := h1
    cases hpx : p x with
    | locked => simp [stateRank]
    | unlocked => simp [stateRank]
    | mastered =>
      have hm := hM e he (by rw [hex]; exact hpx)
      rw [hen] at hm
      rw [hm] at hn
      simp at hn
  · subst h2
    rw [hn]
    simp [stateRank]
  · exact le_refl _

/-- Both invariants are preserved by boss-battle victories on unlocked
nodes, provided no node has two prerequisite edges. -/
theorem inv_preserved (g : Genome) (hdeg : (g.edges.map Prod.snd).Nodup)
    (p : Progress) (n : String)
    (hI : MasteredClosed g p ∧ UnlockedJustified g p)
    (hn : p n = NState.unlocked) :
    MasteredClosed g (bossBattleMaster g p n)
      ∧ UnlockedJustified g (bossBattleMaster g p n) := by
  obtain ⟨hM, hU⟩ := hI
  have hfwd := master_forward g p n hM hn
  have hmst : ∀ y, p y = NState.mastered →
      bossBattleMaster g p n y = NState.mastered := by
    intro y hy
    have hr := hfwd y
    rw [hy] at hr
    exact rank_two_eq_mastered _ hr
  have hnoself : ¬ ∃ e ∈ g.edges, e.1 = n ∧ e.2 = n := by
    rintro ⟨e, he, he1, he2⟩
    have hm := hU e he (by rw [he2]; exact hn)
    rw [he1] at hm
    rw [hm] at hn
    simp at hn
  have hmn : bossBattleMaster g p n n = NState.mastered := by
    rw [bossBattleMaster_apply, if_neg hnoself, if_pos rfl]
  constructor
  · intro e he h2
    rw [bossBattleMaster_apply] at h2
    rcases Classical.em (∃ e1 ∈ g.edges, e1.1 = n ∧ e1.2 = e.2) with c1 | c1
    · rw [if_pos c1] at h2
      exact absurd h2 (by simp)
    · rw [if_neg c1] at h2
      rcases Classical.em (e.2 = n) with c2 | c2
      · exact hmst e.1 (hU e he (by rw [c2]; exact hn))
      · rw [if_neg c2] at h2
        exact hmst e.1 (hM e he h2)
  · intro e he h2
    rw [bossBattleMaster_apply] at h2
    rcases Classical.em (∃ e1 ∈ g.edges, e1.1 = n ∧ e1.2 = e.2) with c1 | c1
    · obtain ⟨e', he', he'1, he'2⟩ := c1
      have hee : e = e' := List.inj_on_of_nodup_map hdeg he he' he'2.symm
      rw [hee, he'1]
      exact hmn
    · rw [if_neg c1] at h2
      rcases Classical.em (e.2 = n) with c2 | c2
      · rw [if_pos c2] at h2
        exact absurd h2 (by simp)
      · rw [if_neg c2] at h2
        exact hmst e.1 (hU e he h2)

/-- Both invariants hold in every reachable progress state of a genome
where no node has two prerequisite edges. -/
theorem reach_inv (g : Genome) (hdeg : (g.edges.map Prod.snd).Nodup)
    (p : Progress) (hp : Reach g p) :
    MasteredClosed g p ∧ UnlockedJustified g p := by
  induction hp with
  | init => exact inv_init g
  | master q m _ hqm ih => exact inv_preserved g hdeg q m ih hqm

/-- C2 amended: in a genome where no node has two prerequisite edges
(true of the shipped Econ 101 genome), every boss-battle victory on an
unlocked node of a reachable progress state moves each node's state only
forward along locked, unlocked, mastered; the reversal in the original
claim comes from the concept-creation reset, not from battles. -/
theorem reachable_master_monotonic (g : Genome)
    (hdeg : (g.edges.map Prod.snd).Nodup) (p : Progress) (hp : Reach g p)
    (n : String) (hn : p n = NState.unlocked) (x : String) :
    stateRank (p x) ≤ stateRank (bossBattleMaster g p n x) :=
  master_forward g p n (reach_inv g hdeg p hp).1 hn x

/-- Witness for the amended C2 theorem: mastering the unlocked Econ 101
root from the freshly initialized course. -/
theorem reachable_master_monotonic_witness :
    stateRank (initProgress econGenome "ECON101_OPPCOST")
      ≤ stateRank (bossBattleMaster econGenome (initProgress econGenome)
          "ECON101_SCARCITY" "ECON101_OPPCOST") :=
  reachable_master_monotonic econGenome (by decide) (initProgress econGenome)
    Reach.init "ECON101_SCARCITY" (by decide) "ECON101_OPPCOST"

/-- C2 counterexample: generate concept X (set unlocked), win its boss
battle (set mastered), then generate the same concept again - line 1261
runs unconditionally and moves X from mastered back to unlocked, a
reverse transition along a reachable operation sequence. -/
theorem concept_regen_reverses_mastery_cex :
    (addConceptProgress (fun _ => NState.locked) "X") "X" = NState.unlocked
    ∧ (bossBattleMaster customGenomeX
        (addConceptProgress (fun _ => NState.locked) "X") "X") "X"
        = NState.mastered
    ∧ (addConceptProgress (bossBattleMaster customGenomeX
        (addConceptProgress (fun _ => NState.locked) "X") "X") "X") "X"
        = NState.unlocked :=
  ⟨by decide, by decide, by decide⟩

/-! ## Theorems: assessment gates (claims C3 and C8) -/

/-- C3: the assessment stages, wired in the fixed order MCQ (70), Very
Short Answer (75), Short Answer (80), Long Answer (90) by the mock-test
stage map, advance to their next stage exactly when score/total*100
meets the threshold; in particular at threshold - 1 they do not advance
and at exactly the threshold they do. -/
theorem stage_gates_correct (score total : ℕ) (_ht : 0 < total) :
    (render_mcq_results_next 70 "vsa_generating" score total = "vsa_generating"
      ↔ (score : ℚ) / (total : ℚ) * 100 ≥ 70)
    ∧ (render_subjective_results_next "vsa" 75 "sa_generating" score total = "sa_generating"
      ↔ (score : ℚ) / (total : ℚ) * 100 ≥ 75)
    ∧ (render_subjective_results_next "sa" 80 "la_generating" score total = "la_generating"
      ↔ (score : ℚ) / (total : ℚ) * 100 ≥ 80)
    ∧ (render_subjective_results_next "la" 90 "final_results" score total = "final_results"
      ↔ (score : ℚ) / (total : ℚ) * 100 ≥ 90) := by
  refine ⟨?_, ?_, ?_, ?_⟩
  · simp [render_mcq_results_next]
  · simp [render_subjective_results_next]
  · simp [render_subjective_results_next]
  · simp [render_subjective_results_next]

/-- Witness for the gate theorem at the boundary 69 of 100. -/
theorem stage_gates_correct_witness :
    (render_mcq_results_next 70 "vsa_generating" 69 100 = "vsa_generating"
      ↔ ((69 : ℕ) : ℚ) / ((100 : ℕ) : ℚ) * 100 ≥ 70)
    ∧ (render_subjective_results_next "vsa" 75 "sa_generating" 69 100 = "sa_generating"
      ↔ ((69 : ℕ) : ℚ) / ((100 : ℕ) : ℚ) * 100 ≥ 75)
    ∧ (render_subjective_results_next "sa" 80 "la_generating" 69 100 = "la_generating"
      ↔ ((69 : ℕ) : ℚ) / ((100 : ℕ) : ℚ) * 100 ≥ 80)
    ∧ (render_subjective_results_next "la" 90 "final_results" 69 100 = "final_results"
      ↔ ((69 : ℕ) : ℚ) / ((100 : ℕ) : ℚ) * 100 ≥ 90) :=
  stage_gates_correct 69 100 (by decide)

/-- C8 counterexample: on a failed grading call the recorded per-question
feedback is the empty dict, so with a stage holding question q1 there is
no entry carrying the error as q1's reason - the stage score is 0 and an
error banner is shown, but the claimed per-question reasons do not
exist. -/
theorem grading_failure_no_reason_cex :
    render_subjective_results_update none = (0, [], true)
    ∧ ((render_subjective_results_update none).2.1.filter
        (fun it => it.question_id == "q1")) = [] :=
  ⟨rfl, rfl⟩

/-- C8 amended: a failed subjective grading call records the stage score
as 0, sets the feedback to empty (so individual questions get no
recorded reason), shows an error banner (the failure is not silent at
stage level), and the pipeline continues to the same stage's
regeneration state rather than crashing. -/
theorem grading_failure_downgrade (q_type next_stage : String)
    (pct total : ℕ) (hpct : 0 < pct) (_ht : 0 < total) :
    render_subjective_results_update none = (0, [], true)
    ∧ render_subjective_results_next q_type pct next_stage 0 total
        = q_type ++ "_generating" := by
  refine ⟨rfl, ?_⟩
  unfold render_subjective_results_next
  rw [if_neg]
  intro hge
  rw [Nat.cast_zero, zero_div, zero_mul] at hge
  have hq : (0 : ℚ) < (pct : ℚ) := by exact_mod_cast hpct
  linarith

/-- Witness for the grading-failure downgrade at the VSA stage. -/
theorem grading_failure_downgrade_witness :
    render_subjective_results_update none = (0, [], true)
    ∧ render_subjective_results_next "vsa" 75 "sa_generating" 0 10
        = "vsa" ++ "_generating" :=
  grading_failure_downgrade "vsa" "sa_generating" 75 10 (by decide) (by decide)

/-! ## Theorems: chunker (claims C9 and C10) -/

/-- Code point of a decimal digit character. -/
theorem digitChar_toNat (d : ℕ) (hd : d < 10) : (digitChar d).toNat = 48 + d := by
  interval_cases d <;> rfl

/-- Decoding a rendered decimal number gives the number back. -/
theorem digitsVal_natDigits (n : ℕ) : digitsVal (natDigits n) = n := by
  induction n using Nat.strong_induction_on with
  | _ n ih =>
    rw [natDigits]
    split_ifs with h
    · simp only [digitsVal, List.foldl_cons, List.foldl_nil, digitChar_toNat n h]
      omega
    · have hlt : n / 10 < n := Nat.div_lt_self (by omega) (by omega)
      have hmod : n % 10 < 10 := Nat.mod_lt _ (by omega)
      unfold digitsVal
      rw [List.foldl_append]
      have hih := ih (n / 10) hlt
      unfold digitsVal at hih
      rw [hih]
      simp only [List.foldl_cons, List.foldl_nil, digitChar_toNat _ hmod]
      omega

/-- natDigits is injective. -/
theorem natDigits_inj (m n : ℕ) (h : natDigits m = natDigits n) : m = n := by
  have hv := congrArg digitsVal h
  rwa [digitsVal_natDigits, digitsVal_natDigits] at hv

/-- String append acts on the underlying character lists. -/
theorem strData_append (a b : String) : (a ++ b).data = a.data ++ b.data := rfl

/-- String.mk exposes its character list. -/
theorem strData_mk (l : List Char) : (String.mk l).data = l := rfl

/-- chunkIdOf determines its sequence number, given digests of one fixed
length (the truncated md5 hex digest always has 8 characters). -/
theorem chunkIdOf_inj (source_id h1 h2 : String) (k1 k2 : ℕ)
    (hl1 : h1.data.length = 8) (hl2 : h2.data.length = 8)
    (heq : chunkIdOf source_id k1 h1 = chunkIdOf source_id k2 h2) : k1 = k2 := by
  have hd := congrArg String.data heq
  simp only [chunkIdOf, strData_append, strData_mk, List.append_assoc] at hd
  have hd2 := List.append_cancel_left hd
  have hd3 := List.append_cancel_left hd2
  have hlen : ("_".data ++ h1.data).length = ("_".data ++ h2.data).length := by
    rw [List.length_append, List.length_append, hl1, hl2]
  exact natDigits_inj _ _ (List.append_inj' hd3 hlen).1

/-- C10: the chunk ids produced by one chunk_text call are pairwise
distinct: the id embeds the sequence index i / (chunk_size - overlap),
which differs between any two produced chunks, for any digest function
of fixed output length 8 - so even identical chunk texts cannot make
two ids of one call collide. -/
theorem chunk_text_ids_nodup (md5hex8 : String → String)
    (hlen : ∀ s, (md5hex8 s).data.length = 8) (text source_id : String)
    (chunk_size overlap : ℕ) (hov : overlap < chunk_size) (htext : text ≠ "") :
    ((chunk_text md5hex8 text source_id chunk_size overlap).map Chunk.chunk_id).Nodup := by
  unfold chunk_text chunkWordSpans pyRange
  rw [if_neg htext, List.map_map, List.map_map, List.map_map]
  apply List.Nodup.map ?_ (List.nodup_range _)
  intro j1 j2 hj
  have hstep : 0 < chunk_size - overlap := by omega
  simp only [Function.comp] at hj
  have hk := chunkIdOf_inj source_id _ _ _ _ (hlen _) (hlen _) hj
  rwa [Nat.mul_div_left _ hstep, Nat.mul_div_left _ hstep] at hk

/-- Witness for the chunk-id distinctness theorem with a constant
8-character digest on a two-word text. -/
theorem chunk_text_ids_nodup_witness :
    ((chunk_text (fun _ => "00000000") "a b" "src" 2 1).map Chunk.chunk_id).Nodup :=
  chunk_text_ids_nodup (fun _ => "00000000") (fun _ => rfl) "a b" "src" 2 1
    (by decide) (by decide)

/-- C9: chunking a 1200-word text with chunk_size 500 and overlap 50
yields exactly 3 chunks, whose word windows are words 0-499, 450-949 and
900-1199; the second window's first 50 words equal the first window's
last 50 words, and the third window's first 50 words equal the second
window's last 50 words. -/
theorem chunk_1200_words (md5hex8 : String → String) (text source_id : String)
    (h : (pySplit text).length = 1200) :
    chunkWordSpans (pySplit text) 500 50
      = [(0, (pySplit text).take 500),
         (450, ((pySplit text).drop 450).take 500),
         (900, (pySplit text).drop 900)]
    ∧ (chunk_text md5hex8 text source_id 500 50).length = 3
    ∧ (((pySplit text).drop 450).take 500).take 50 = ((pySplit text).take 500).drop 450
    ∧ ((pySplit text).drop 900).take 50 = (((pySplit text).drop 450).take 500).drop 450 := by
  have htext : text ≠ "" := by
    intro he
    rw [he] at h
    exact absurd h (by decide)
  have hr : pyRange 1200 450 = [0, 450, 900] := by decide
  have h3 : ((pySplit text).drop 900).take 500 = (pySplit text).drop 900 := by
    apply List.take_of_length_le
    rw [List.length_drop, h]
    omega
  have hspans : chunkWordSpans (pySplit text) 500 50
      = [(0, (pySplit text).take 500),
         (450, ((pySplit text).drop 450).take 500),
         (900, (pySplit text).drop 900)] := by
    unfold chunkWordSpans
    have h450 : (500 : ℕ) - 50 = 450 := rfl
    rw [h450, h, hr]
    simp only [List.map_cons, List.map_nil, List.drop_zero, h3]
  refine ⟨hspans, ?_, ?_, ?_⟩
  · unfold chunk_text
    rw [if_neg htext, List.length_map, hspans]
    rfl
  · rw [List.take_take, List.drop_take]
    norm_num
  · rw [List.drop_take, List.drop_drop]

/-- Splitting n repetitions of "a " yields n one-character words. -/
theorem pySplitGo_replicate (n : ℕ) :
    pySplitGo [] (List.flatten (List.replicate n ['a', ' '])) = List.replicate n ['a'] := by
  induction n with
  | zero => rfl
  | succ k ih =>
    rw [List.replicate_succ, List.flatten_cons, List.cons_append, List.cons_append,
      List.nil_append]
    show ['a'] :: pySplitGo [] (List.flatten (List.replicate k ['a', ' ']))
      = List.replicate (k + 1) ['a']
    rw [ih, List.replicate_succ]

/-- The concrete text splits into 1200 words. -/
theorem pySplit_text1200 : pySplit text1200 = List.replicate 1200 "a" := by
  unfold pySplit text1200
  rw [strData_mk, pySplitGo_replicate, List.map_replicate]

/-- Witness for the 1200-word chunking theorem at a concrete text of 1200
one-letter words. -/
theorem chunk_1200_words_witness :
    chunkWordSpans (pySplit text1200) 500 50
      = [(0, (pySplit text1200).take 500),
         (450, ((pySplit text1200).drop 450).take 500),
         (900, (pySplit text1200).drop 900)]
    ∧ (chunk_text (fun _ => "00000000") text1200 "src" 500 50).length = 3
    ∧ (((pySplit text1200).drop 450).take 500).take 50
        = ((pySplit text1200).take 500).drop 450
    ∧ ((pySplit text1200).drop 900).take 50
        = (((pySplit text1200).drop 450).take 500).drop 450 :=
  chunk_1200_words (fun _ => "00000000") text1200 "src"
    (by rw [pySplit_text1200, List.length_replicate])

/-! ## Theorems: synthesizer grounding (claim C4) -/

/-- C4 counterexample: a topic whose two matched chunk ids both resolve
to whitespace-only texts - so none resolves to non-whitespace text - is
nonetheless synthesized through a generation call, because the separator
makes the joined text non-blank; the content is generated text, not the
placeholder. -/
theorem whitespace_chunks_still_generate_cex :
    (synthesizeTopicStep ["c1", "c2"] [("c1", " "), ("c2", " ")]
      (fun t => "GEN:" ++ t)).1 = true
    ∧ (synthesizeTopicStep ["c1", "c2"] [("c1", " "), ("c2", " ")]
      (fun t => "GEN:" ++ t)).2 ≠ noSourcePlaceholder :=
  ⟨by decide, by decide⟩

/-- C4 amended: when a topic's matched chunk ids resolve to no chunk at
all (in particular when the matched list is empty or nothing resolves),
or to exactly one chunk whose text is whitespace-only, the joined text
strips to empty, no generation call is made and the content is the fixed
placeholder; with two or more resolving whitespace-only chunks the
separator makes the joined text non-blank and the service is called. -/
theorem empty_resolution_placeholder (matched_chunks : List String)
    (cmap : List (String × String)) (gen : String → String)
    (hres : matched_chunks.filterMap (lookupChunk cmap) = []
      ∨ ∃ t, matched_chunks.filterMap (lookupChunk cmap) = [t] ∧ pyStrip t = "") :
    synthesizeTopicStep matched_chunks cmap gen = (false, noSourcePlaceholder) := by
  unfold synthesizeTopicStep
  rcases hres with h | ⟨t, ht, htr⟩
  · rw [h]
    rfl
  · rw [ht]
    have hsingle : "\n\n---\n\n".intercalate [t] = t := by
      cases t with
      | mk l => rfl
    rw [hsingle]
    unfold synthDecision
    rw [if_pos htr]

/-- Witness: a topic whose only matched id does not resolve makes no
generation call and records the placeholder. -/
theorem empty_resolution_placeholder_witness :
    synthesizeTopicStep ["missing"] [("other", "some text")] (fun t => t)
      = (false, noSourcePlaceholder) :=
  empty_resolution_placeholder ["missing"] [("other", "some text")] (fun t => t)
    (Or.inl (by decide))

/-! ## Theorems: generation retry policy (claim C6) -/

/-- C6 counterexample: with a rate-limit error whose extracted
server-suggested wait is 10 seconds, the decorator sleeps 11 seconds
(the extracted value plus the base delay) on every retry of the run, not
the extracted 10 the claim describes. -/
theorem retry_sleep_adds_base_delay_cex :
    extractRetryDelay "retry_delay \x7b seconds: 10 \x7d" = some 10
    ∧ (gemini_api_call_with_retry
        (fun _ => ApiOutcome.resourceExhausted (α := ℕ)
          "retry_delay \x7b seconds: 10 \x7d")).2.1 = [11, 11]
    ∧ (11 : ℕ) ≠ 10 :=
  ⟨by decide, by decide, by decide⟩

/-- C6 amended: the wrapper returns immediately on success; makes exactly
one call and fails with None on any non-rate-limit exception; and on
persistent rate-limit errors makes exactly 3 calls with two sleeps - the
extracted server-suggested seconds plus the 1-second base delay when the
pattern is present, else 1 * 2 ^ attempt - and then returns the terminal
None without further retrying. -/
theorem retry_policy (α : Type) (f : ℕ → ApiOutcome α) (v : α) (e m0 m1 m2 : String) :
    (f 0 = ApiOutcome.success v → gemini_api_call_with_retry f = (some v, [], 1))
    ∧ (f 0 = ApiOutcome.otherError e → gemini_api_call_with_retry f = (none, [], 1))
    ∧ (f 0 = ApiOutcome.resourceExhausted m0 →
       f 1 = ApiOutcome.resourceExhausted m1 →
       f 2 = ApiOutcome.resourceExhausted m2 →
       gemini_api_call_with_retry f
         = (none, [waitTime m0 1 1, waitTime m1 1 2], 3)) := by
  refine ⟨?_, ?_, ?_⟩
  · intro h0
    simp [gemini_api_call_with_retry, MAX_RETRIES, retryLoop, h0]
  · intro h0
    simp [gemini_api_call_with_retry, MAX_RETRIES, retryLoop, h0]
  · intro h0 h1 h2
    simp [gemini_api_call_with_retry, MAX_RETRIES, retryLoop, h0, h1, h2]

/-- Witness for the retry policy: a persistently rate-limited call with a
server-suggested delay of 10 seconds. -/
theorem retry_policy_witness :
    gemini_api_call_with_retry
      (fun _ => ApiOutcome.resourceExhausted (α := ℕ)
        "retry_delay \x7b seconds: 10 \x7d")
      = (none,
         [waitTime "retry_delay \x7b seconds: 10 \x7d" 1 1,
          waitTime "retry_delay \x7b seconds: 10 \x7d" 1 2], 3) :=
  (retry_policy ℕ
    (fun _ => ApiOutcome.resourceExhausted (α := ℕ)
      "retry_delay \x7b seconds: 10 \x7d")
    0 "" "retry_delay \x7b seconds: 10 \x7d" "retry_delay \x7b seconds: 10 \x7d"
    "retry_delay \x7b seconds: 10 \x7d").2.2 rfl rfl rfl

/-! ## Theorems: resilient structured-output parsing (claims C7 and C5) -/

/-- Where findLazyClose succeeds, the input splits as the consumed prefix,
the closing brace and a tail, and the result is the reversed accumulator
followed by that prefix and the closing brace. -/
theorem findLazyClose_split (cs : List Char) (acc res : List Char)
    (h : findLazyClose cs acc = some res) :
    ∃ pre post, cs = pre ++ rbrace :: post ∧ res = acc.reverse ++ pre ++ [rbrace] := by
  induction cs generalizing acc with
  | nil => simp [findLazyClose] at h
  | cons c rest ih =>
    rw [findLazyClose] at h
    split_ifs at h with hc
    · obtain ⟨hcr, _⟩ := hc
      cases h
      refine ⟨[], rest, ?_, ?_⟩
      · rw [hcr]
        rfl
      · simp
    · obtain ⟨pre, post, hcs, hres⟩ := ih (c :: acc) h
      refine ⟨c :: pre, post, ?_, ?_⟩
      · rw [hcs]
        rfl
      · rw [hres]
        simp

/-- A successful fence attempt returns a span flanked inside its input. -/
theorem tryFenceAt_split (cs span : List Char) (h : tryFenceAt cs = some span) :
    ∃ pre post, cs = pre ++ span ++ post := by
  unfold tryFenceAt at h
  have hsuf1 : ∃ a, cs = a ++ (if ['j', 's', 'o', 'n'].isPrefixOf cs then cs.drop 4 else cs) := by
    split_ifs
    · exact ⟨cs.take 4, (List.take_append_drop 4 cs).symm⟩
    · exact ⟨[], rfl⟩
  obtain ⟨a, ha⟩ := hsuf1
  set cs1 := if ['j', 's', 'o', 'n'].isPrefixOf cs then cs.drop 4 else cs with hcs1
  have hsuf2 : cs1 = cs1.takeWhile Char.isWhitespace ++ cs1.dropWhile Char.isWhitespace :=
    (List.takeWhile_append_dropWhile _ _).symm
  cases hm : cs1.dropWhile Char.isWhitespace with
  | nil =>
    rw [hm] at h
    cases h
  | cons c rest =>
    rw [hm] at h
    simp only [] at h
    split_ifs at h with hcl
    · obtain ⟨pre, post, hrest, hspan⟩ := findLazyClose_split rest [lbrace] span h
      refine ⟨a ++ cs1.takeWhile Char.isWhitespace, post, ?_⟩
      calc cs = a ++ cs1 := ha
        _ = a ++ (cs1.takeWhile Char.isWhitespace ++ cs1.dropWhile Char.isWhitespace) := by
              rw [← hsuf2]
        _ = a ++ (cs1.takeWhile Char.isWhitespace ++ (c :: rest)) := by rw [hm]
        _ = a ++ (cs1.takeWhile Char.isWhitespace ++ (c :: (pre ++ rbrace :: post))) := by
              rw [hrest]
        _ = (a ++ cs1.takeWhile Char.isWhitespace) ++ span ++ post := by
              rw [hspan, hcl]
              simp

/-- The fenced regex's capture is an infix of the searched text. -/
theorem fencedSpan_split (cs span : List Char) (h : fencedSpan cs = some span) :
    ∃ pre post, cs = pre ++ span ++ post := by
  induction cs with
  | nil => simp [fencedSpan] at h
  | cons c rest ih =>
    rw [fencedSpan] at h
    split_ifs at h with hc
    · cases ht : tryFenceAt (rest.drop 2) with
      | some sp =>
        rw [ht] at h
        cases h
        obtain ⟨pre, post, hsplit⟩ := tryFenceAt_split _ _ ht
        refine ⟨c :: rest.take 2 ++ pre, post, ?_⟩
        calc c :: rest = c :: (rest.take 2 ++ rest.drop 2) := by
              rw [List.take_append_drop]
          _ = c :: (rest.take 2 ++ (pre ++ span ++ post)) := by rw [hsplit]
          _ = (c :: rest.take 2 ++ pre) ++ span ++ post := by simp
      | none =>
        rw [ht] at h
        obtain ⟨pre, post, hsplit⟩ := ih h
        exact ⟨c :: pre, post, by rw [hsplit]; rfl⟩
    · obtain ⟨pre, post, hsplit⟩ := ih h
      exact ⟨c :: pre, post, by rw [hsplit]; rfl⟩

/-- The greedy brace regex's match is an infix of the searched text. -/
theorem braceSpan_split (cs span : List Char) (h : braceSpan cs = some span) :
    ∃ pre post, cs = pre ++ span ++ post := by
  unfold braceSpan at h
  cases hr : cs.reverse.findIdx? (fun c => c == rbrace) with
  | none =>
    rw [hr] at h
    cases h
  | some ridx =>
    rw [hr] at h
    simp only [] at h
    cases hb : (cs.take (cs.length - 1 - ridx)).findIdx? (fun c => c == lbrace) with
    | none =>
      rw [hb] at h
      cases h
    | some b =>
      rw [hb] at h
      cases h
      refine ⟨cs.take b,
        (cs.drop b).drop (cs.length - 1 - ridx - b + 1), ?_⟩
      conv_lhs => rw [← List.take_append_drop b cs]
      conv_lhs =>
        rw [← List.take_append_drop (cs.length - 1 - ridx - b + 1) (cs.drop b)]
      simp [List.append_assoc]

/-- C7 amended: every record the resilient parser returns is the
json.loads parse of a brace-delimited substring of the input (the fenced
capture when the fenced pattern matches, else the first-to-last brace
span); it never fabricates a record, and an input without any
well-formed JSON-object substring therefore yields None.  The original
claim's stronger promise of returning the first well-formed object
substring fails when text after that object holds another closing
brace. -/
theorem resilient_parse_from_substring (s : String) (v : JsonValue)
    (h : resilient_json_parse s = some v) :
    ∃ pre mid post, s.data = pre ++ mid ++ post ∧ jsonLoadsChars mid = some v := by
  unfold resilient_json_parse at h
  cases hf : fencedSpan s.data with
  | some span =>
    rw [hf] at h
    obtain ⟨pre, post, hsplit⟩ := fencedSpan_split _ _ hf
    exact ⟨pre, span, post, hsplit, h⟩
  | none =>
    rw [hf] at h
    cases hb : braceSpan s.data with
    | some span =>
      rw [hb] at h
      obtain ⟨pre, post, hsplit⟩ := braceSpan_split _ _ hb
      exact ⟨pre, span, post, hsplit, h⟩
    | none =>
      rw [hb] at h
      cases h

/-- Witness for the substring property on a noisy but parseable reply. -/
theorem resilient_parse_from_substring_witness :
    resilient_json_parse "noise \x7b\"k\": 3\x7d"
      = some (JsonValue.obj [("k", JsonValue.num 3)])
    ∧ ∃ pre mid post, ("noise \x7b\"k\": 3\x7d").data = pre ++ mid ++ post
        ∧ jsonLoadsChars mid = some (JsonValue.obj [("k", JsonValue.num 3)]) :=
  ⟨rfl, resilient_parse_from_substring _ _ rfl⟩

/-- C7 counterexample: the input starts with a well-formed JSON object,
but a later closing brace makes the greedy first-to-last brace span
unparseable, so the parser returns None instead of the parse of the
first well-formed JSON-object substring. -/
theorem trailing_brace_breaks_parse_cex :
    resilient_json_parse "\x7b\"a\": 1\x7d oops \x7d" = none
    ∧ (jsonLoads "\x7b\"a\": 1\x7d").isSome = true
    ∧ "\x7b\"a\": 1\x7d oops \x7d" = "\x7b\"a\": 1\x7d" ++ " oops \x7d" :=
  ⟨rfl, rfl, rfl⟩

/-- C5 counterexample: with a pool holding only chunk id A, a service
response referencing the unknown chunk id ZZZ is returned by
generate_content_outline unchanged - the dangling reference survives in
the outline, with no warning, because the source performs no validation
of returned chunk ids against the pool. -/
theorem outline_keeps_dangling_refs_cex :
    ((generate_content_outline [⟨"A", "w1 w2 w3 w4 w5 w6 w7 w8 w9 w10 w11"⟩]
        "\x7b\"outline\": [\x7b\"topic\": \"T\", \"relevant_chunks\": [\"ZZZ\"]\x7d]\x7d").map
      outlineRefs) = some ["ZZZ"]
    ∧ "ZZZ" ∉ ([⟨"A", "w1 w2 w3 w4 w5 w6 w7 w8 w9 w10 w11"⟩] : List Chunk).map Chunk.chunk_id :=
  ⟨rfl, by decide⟩

/-- C5 amended: generate_content_outline validates nothing and drops
nothing: whenever at least one chunk passes the prompt filter, the
outline returned is exactly the resiliently parsed service response, so
chunk ids that do not resolve in the pool survive in the outline (they
are only skipped later at synthesis time by the chunks-map membership
check, without a warning); with no usable chunk it returns the None
error instead. -/
theorem outline_returned_unvalidated (all_chunks : List Chunk) (response : String)
    (v : JsonValue) (hne : (promptChunksOf all_chunks).isEmpty = false)
    (hp : resilient_json_parse response = some v) :
    generate_content_outline all_chunks response = some v := by
  simp [generate_content_outline, hne, hp]

/-- Witness for the unvalidated-return theorem on an empty outline. -/
theorem outline_returned_unvalidated_witness :
    generate_content_outline [⟨"B", "x1 x2 x3 x4 x5 x6 x7 x8 x9 x10 x11"⟩]
        "\x7b\"outline\": []\x7d"
      = some (JsonValue.obj [("outline", JsonValue.arr [])]) :=
  outline_returned_unvalidated _ _ _ (by decide) rfl

end Vekkam
